import Mathlib

/-!
Verification of `DispatcherCore` from the quantum dispatching library
(`src/quantum/impl/quantum_dispatcher_core_impl.h`), against its design
specification. The C++ implementation is shallowly embedded: each queue is a
list of tasks plus the flags the dispatcher manipulates, `size_t` arithmetic is
`Nat` with an explicit modulus where the width matters, and functions that can
throw return `Except String`.
-/

namespace Quantum

instance {ε α : Type _} [DecidableEq ε] [DecidableEq α] : DecidableEq (Except ε α) :=
  fun x y =>
    match x, y with
    | .ok a, .ok b => if h : a = b then .isTrue (by rw [h]) else .isFalse (by simp [h])
    | .error a, .error b => if h : a = b then .isTrue (by rw [h]) else .isFalse (by simp [h])
    | .ok _, .error _ => .isFalse (by simp)
    | .error _, .ok _ => .isFalse (by simp)

/-- The `size_t` modulus (64-bit). -/
def USIZE : Nat := 2 ^ 64

/-- The `std::numeric_limits<size_t>::max()` sentinel initialising `numTasks`
in `DispatcherCore::post`. -/
def USIZEMAX : Nat := 2 ^ 64 - 1

/-- Modelled from the spec: `IQueue::QueueId::All = -1` (public ABI, spec §6);
the enum itself lives in `quantum_iqueue.h`, outside the provided sources. -/
def QueueIdAll : Int := -1

/-- Modelled from the spec: `IQueue::QueueId::Any = -2` (public ABI, spec §6). -/
def QueueIdAny : Int := -2

/-- Modelled from the spec: the `IQueue::QueueType` selector {Coro, Io, All}
(spec §6). -/
inductive QueueType where
  | Coro
  | Io
  | All
  deriving Repr, DecidableEq

/-- Modelled from the spec: per-queue statistics counters (spec §4.6: tasks
enqueued, tasks completed, tasks errored, current depth, peak depth, time
spent blocked); `QueueStatistics` is not among the provided sources. -/
structure QueueStatistics where
  postedCount : Nat := 0
  completedCount : Nat := 0
  erroredCount : Nat := 0
  currentDepth : Nat := 0
  peakDepth : Nat := 0
  blockedTime : Nat := 0
  deriving Repr, DecidableEq, Inhabited

instance : Add QueueStatistics :=
  ⟨fun a b =>
    ⟨a.postedCount + b.postedCount, a.completedCount + b.completedCount,
     a.erroredCount + b.erroredCount, a.currentDepth + b.currentDepth,
     a.peakDepth + b.peakDepth, a.blockedTime + b.blockedTime⟩⟩

/-- A coroutine task: only the fields `DispatcherCore` touches (`_queueId` via
`getQueueId`/`setQueueId`, the priority flag) are modelled; the payload is
irrelevant to routing. -/
structure Task where
  queueId : Int
  isHighPriority : Bool := false
  deriving Repr, DecidableEq

/-- A blocking I/O task: as with `Task`, only the queue id matters here. -/
structure IoTask where
  queueId : Int
  isHighPriority : Bool := false
  deriving Repr, DecidableEq

/-- Modelled from the spec: a coroutine `TaskQueue` (spec §3) — FIFO store of
tasks, a terminated flag, per-queue statistics and an optional CPU pin. The
class itself is outside the provided sources; `DispatcherCore` only calls
`size`, `empty`, `enqueue`, `terminate`, `stats` and `pinToCore` on it. -/
structure TaskQueue where
  tasks : List Task := []
  terminated : Bool := false
  statistics : QueueStatistics := {}
  pinnedCore : Option Nat := none
  deriving Repr, DecidableEq, Inhabited

def TaskQueue.size (q : TaskQueue) : Nat := q.tasks.length

def TaskQueue.empty (q : TaskQueue) : Bool := q.tasks.isEmpty

def TaskQueue.enqueue (q : TaskQueue) (t : Task) : TaskQueue :=
  { q with tasks := q.tasks ++ [t] }

def TaskQueue.terminate (q : TaskQueue) : TaskQueue :=
  { q with terminated := true }

/-- Modelled from the spec: an `IoQueue` (spec §3, §4.7) — FIFO store of
`IoTask`s, a terminated flag, the condition flag driven by
`signalEmptyCondition`, and a capacity bounding `tryEnqueue` ("try-enqueue so
a full queue is skipped", spec §4.7). -/
structure IoQueue where
  tasks : List IoTask := []
  capacity : Nat := USIZEMAX
  terminated : Bool := false
  emptyCond : Bool := true
  statistics : QueueStatistics := {}
  deriving Repr, DecidableEq, Inhabited

def IoQueue.size (q : IoQueue) : Nat := q.tasks.length

def IoQueue.empty (q : IoQueue) : Bool := q.tasks.isEmpty

def IoQueue.enqueue (q : IoQueue) (t : IoTask) : IoQueue :=
  { q with tasks := q.tasks ++ [t] }

/-- Modelled from the spec: `tryEnqueue` accepts the task iff the queue is not
full, returning the updated queue on success. -/
def IoQueue.tryEnqueue (q : IoQueue) (t : IoTask) : Option IoQueue :=
  if q.tasks.length < q.capacity then some (q.enqueue t) else none

def IoQueue.terminate (q : IoQueue) : IoQueue :=
  { q with terminated := true }

def IoQueue.signalEmptyCondition (q : IoQueue) (b : Bool) : IoQueue :=
  { q with emptyCond := b }

/-- The `DispatcherCore` state: the three queue vectors, the load-balancing
flag, the set-once terminated flag and the `[lo, hi)` coroutine range for
`Any` (fields of `quantum_dispatcher_core.h`, as used by the impl). -/
structure DispatcherCore where
  coroQueues : List TaskQueue
  sharedIoQueues : List IoQueue
  ioQueues : List IoQueue
  loadBalanceSharedIoQueues : Bool := false
  terminated : Bool := false
  coroQueueIdRangeForAny : Nat × Nat
  deriving Repr, DecidableEq

/-- The value `_coroQueues[i].size()` as read by the selection loop (an unchecked
`operator[]`; the loop only probes indices inside the configured range). -/
def DispatcherCore.coroQueueSize (s : DispatcherCore) (i : Nat) : Nat :=
  (s.coroQueues.getD i default).size

/-- The queue-selection loop of `DispatcherCore::post` for `queueId == Any`
(impl lines 341–357): scan the indices in order, replace the running choice
whenever a strictly smaller size is seen, and break as soon as the running
minimum `numTasks` is 0. -/
def anyLoop (sizes : Nat → Nat) (index numTasks : Nat) : List Nat → Nat × Nat
  | [] => (index, numTasks)
  | i :: rest =>
    let queueSize := sizes i
    let p := if queueSize < numTasks then (i, queueSize) else (index, numTasks)
    if p.2 = 0 then p else anyLoop sizes p.1 p.2 rest

/-- The index `DispatcherCore::post` binds an `Any` task to: `index` starts at
0, `numTasks` at `size_t` max, and the loop walks `[lo, hi)`. -/
def DispatcherCore.selectAnyIndex (s : DispatcherCore) : Nat :=
  (anyLoop s.coroQueueSize 0 USIZEMAX
    (List.range' s.coroQueueIdRangeForAny.1
      (s.coroQueueIdRangeForAny.2 - s.coroQueueIdRangeForAny.1))).1

/-- Embedding of `DispatcherCore::post` (impl lines 331–370). A null task returns at once.
`Any` is rewritten to the selected index; a specific id `≥ size` throws
"Queue id out of bounds"; finally `_coroQueues.at(id).enqueue(task)` runs —
`at` itself throws for an id outside `[0, N)` (a negative id converts to a
huge `size_t`). -/
def DispatcherCore.post (s : DispatcherCore) (task? : Option Task) :
    Except String DispatcherCore :=
  match task? with
  | none => .ok s
  | some task₀ =>
    let routed : Except String Task :=
      if task₀.queueId = QueueIdAny then
        .ok { task₀ with queueId := (s.selectAnyIndex : Int) }
      else if task₀.queueId ≥ (s.coroQueues.length : Int) then
        .error "Queue id out of bounds"
      else
        .ok task₀
    match routed with
    | .error e => .error e
    | .ok task =>
      if 0 ≤ task.queueId ∧ task.queueId < (s.coroQueues.length : Int) then
        let qs := s.coroQueues.set task.queueId.toNat
          ((s.coroQueues.getD task.queueId.toNat default).enqueue task)
        .ok { s with coroQueues := qs }
      else
        .error "vector::at out of range"

/-- The probe loop of the load-balanced `Any` branch (impl lines 384–390):
pre-increment the function-local **static** `size_t` index (wrapping mod
2^64) and `tryEnqueue` at `index % n` until some shared queue accepts.
Fuel makes the model total; the C++ `while (1)` spins forever when every
shared queue stays full, which the model reports as `none`. Returns the new
static index, the updated shared queues and the accepting position. -/
def lbLoop (qs : List IoQueue) (task : IoTask) (index : Nat) :
    Nat → Option (Nat × List IoQueue × Nat)
  | 0 => none
  | fuel + 1 =>
    let index' := (index + 1) % USIZE
    let pos := index' % qs.length
    match (qs.getD pos default).tryEnqueue task with
    | some q' => some (index', qs.set pos q', pos)
    | none => lbLoop qs task index' fuel

/-- Embedding of `DispatcherCore::postAsyncIo` (impl lines 372–414). The function-local
`static size_t index` is process-wide C++ state, so it is threaded in and out
explicitly as `g` (one counter for the whole process, whichever instance is
called). A null task returns at once. `Any` goes to the shared queues —
round-robin via `lbLoop` when `_loadBalanceSharedIoQueues`, else queue 0 plus
a wake-up signal to every private queue; a specific id routes to that private
queue with the same bounds behaviour as `post`. -/
def DispatcherCore.postAsyncIo (g : Nat) (s : DispatcherCore) (task? : Option IoTask) :
    Except String (Nat × DispatcherCore) :=
  match task? with
  | none => .ok (g, s)
  | some task =>
    if task.queueId = QueueIdAny then
      if s.loadBalanceSharedIoQueues then
        match lbLoop s.sharedIoQueues task g (s.sharedIoQueues.length + 1) with
        | some (g', qs', _) => .ok (g', { s with sharedIoQueues := qs' })
        | none => .error "all shared I/O queues full: while(1) does not return"
      else
        let shared := s.sharedIoQueues.set 0 ((s.sharedIoQueues.getD 0 default).enqueue task)
        let privates := s.ioQueues.map (fun q => q.signalEmptyCondition false)
        .ok (g, { s with sharedIoQueues := shared, ioQueues := privates })
    else if task.queueId ≥ (s.ioQueues.length : Int) then
      .error "Queue id out of bounds"
    else if 0 ≤ task.queueId ∧ task.queueId < (s.ioQueues.length : Int) then
      let qs := s.ioQueues.set task.queueId.toNat
        ((s.ioQueues.getD task.queueId.toNat default).enqueue task)
      .ok (g, { s with ioQueues := qs })
    else
      .error "vector::at out of range"

/-- Observable order of the per-queue `terminate()` calls issued by
`DispatcherCore::terminate`. -/
inductive TermEvent where
  | coro (i : Nat)
  | privateIo (i : Nat)
  | sharedIo (i : Nat)
  deriving Repr, DecidableEq

/-- Embedding of `DispatcherCore::terminate` (impl lines 81–99): guarded by
`_terminated.test_and_set()`; on the first call terminates every coroutine
queue, then every private I/O queue, then every shared I/O queue. Returns the
new state together with the ordered trace of per-queue terminate calls. -/
def DispatcherCore.terminate (s : DispatcherCore) : DispatcherCore × List TermEvent :=
  if s.terminated then (s, [])
  else
    let s' : DispatcherCore :=
      { s with terminated := true,
               coroQueues := s.coroQueues.map TaskQueue.terminate,
               ioQueues := s.ioQueues.map IoQueue.terminate,
               sharedIoQueues := s.sharedIoQueues.map IoQueue.terminate }
    (s', (List.range s.coroQueues.length).map TermEvent.coro ++
      (List.range s.ioQueues.length).map TermEvent.privateIo ++
      (List.range s.sharedIoQueues.length).map TermEvent.sharedIo)

/-- Embedding of `~DispatcherCore()` (impl lines 75–79): the destructor just calls
`terminate()`. -/
def DispatcherCore.destructor (s : DispatcherCore) : DispatcherCore × List TermEvent :=
  s.terminate

/-- Embedding of `DispatcherCore::coroSize` (impl lines 139–156). -/
def DispatcherCore.coroSize (s : DispatcherCore) (queueId : Int) : Except String Nat :=
  if queueId = QueueIdAll then
    .ok (s.coroQueues.map TaskQueue.size).sum
  else if queueId ≥ (s.coroQueues.length : Int) ∨ queueId < 0 then
    .error "Invalid coroutine queue id"
  else
    .ok (s.coroQueues.getD queueId.toNat default).size

/-- Embedding of `DispatcherCore::ioSize` (impl lines 176–202): `All` sums private then
shared queues, `Any` sums the shared queues, a specific id reads
`_ioQueues.at(queueId)` with no explicit range check (`at` throws). -/
def DispatcherCore.ioSize (s : DispatcherCore) (queueId : Int) : Except String Nat :=
  if queueId = QueueIdAll then
    .ok ((s.ioQueues.map IoQueue.size).sum + (s.sharedIoQueues.map IoQueue.size).sum)
  else if queueId = QueueIdAny then
    .ok (s.sharedIoQueues.map IoQueue.size).sum
  else if 0 ≤ queueId ∧ queueId < (s.ioQueues.length : Int) then
    .ok (s.ioQueues.getD queueId.toNat default).size
  else
    .error "vector::at out of range"

/-- Embedding of `DispatcherCore::size` (impl lines 101–118). -/
def DispatcherCore.size (s : DispatcherCore) (type : QueueType) (queueId : Int) :
    Except String Nat :=
  if type = QueueType.All then
    if queueId ≠ QueueIdAll then
      .error "Cannot specify queue id"
    else
      match s.coroSize QueueIdAll, s.ioSize QueueIdAll with
      | .ok a, .ok b => .ok (a + b)
      | .error e, _ => .error e
      | _, .error e => .error e
  else if type = QueueType.Coro then
    s.coroSize queueId
  else
    s.ioSize queueId

/-- Embedding of `DispatcherCore::coroEmpty` (impl lines 158–174). -/
def DispatcherCore.coroEmpty (s : DispatcherCore) (queueId : Int) : Except String Bool :=
  if queueId = QueueIdAll then
    .ok (s.coroQueues.all TaskQueue.empty)
  else if queueId ≥ (s.coroQueues.length : Int) ∨ queueId < 0 then
    .error "Invalid coroutine queue id"
  else
    .ok (s.coroQueues.getD queueId.toNat default).empty

/-- Embedding of `DispatcherCore::ioEmpty` (impl lines 204–237). -/
def DispatcherCore.ioEmpty (s : DispatcherCore) (queueId : Int) : Except String Bool :=
  if queueId = QueueIdAll then
    .ok (s.sharedIoQueues.all IoQueue.empty && s.ioQueues.all IoQueue.empty)
  else if queueId = QueueIdAny then
    .ok (s.sharedIoQueues.all IoQueue.empty)
  else if 0 ≤ queueId ∧ queueId < (s.ioQueues.length : Int) then
    .ok (s.ioQueues.getD queueId.toNat default).empty
  else
    .error "vector::at out of range"

/-- Embedding of `DispatcherCore::empty` (impl lines 120–137). -/
def DispatcherCore.empty (s : DispatcherCore) (type : QueueType) (queueId : Int) :
    Except String Bool :=
  if type = QueueType.All then
    if queueId ≠ QueueIdAll then
      .error "Cannot specify queue id"
    else
      match s.coroEmpty QueueIdAll, s.ioEmpty QueueIdAll with
      | .ok a, .ok b => .ok (a && b)
      | .error e, _ => .error e
      | _, .error e => .error e
  else if type = QueueType.Coro then
    s.coroEmpty queueId
  else
    s.ioEmpty queueId

/-- Embedding of `DispatcherCore::coroStats` (impl lines 257–277). -/
def DispatcherCore.coroStats (s : DispatcherCore) (queueId : Int) :
    Except String QueueStatistics :=
  if queueId = QueueIdAll then
    .ok ((s.coroQueues.map TaskQueue.statistics).foldl (· + ·) {})
  else if queueId ≥ (s.coroQueues.length : Int) ∨ queueId < 0 then
    .error "Invalid coroutine queue id"
  else
    .ok (s.coroQueues.getD queueId.toNat default).statistics

/-- Embedding of `DispatcherCore::ioStats` (impl lines 279–312): `All` accumulates private
then shared queues, `Any` the shared ones; a specific id is range-checked
(unlike `ioSize`). -/
def DispatcherCore.ioStats (s : DispatcherCore) (queueId : Int) :
    Except String QueueStatistics :=
  if queueId = QueueIdAll then
    .ok (((s.ioQueues.map IoQueue.statistics) ++ (s.sharedIoQueues.map IoQueue.statistics)).foldl
      (· + ·) {})
  else if queueId = QueueIdAny then
    .ok ((s.sharedIoQueues.map IoQueue.statistics).foldl (· + ·) {})
  else if queueId ≥ (s.ioQueues.length : Int) ∨ queueId < 0 then
    .error "Invalid IO queue id"
  else
    .ok (s.ioQueues.getD queueId.toNat default).statistics

/-- Embedding of `DispatcherCore::stats` (impl lines 239–255). -/
def DispatcherCore.stats (s : DispatcherCore) (type : QueueType) (queueId : Int) :
    Except String QueueStatistics :=
  if type = QueueType.All then
    if queueId ≠ QueueIdAll then
      .error "Cannot specify queue id"
    else
      match s.coroStats QueueIdAll, s.ioStats QueueIdAll with
      | .ok a, .ok b => .ok (a + b)
      | .error e, _ => .error e
      | _, .error e => .error e
  else if type = QueueType.Coro then
    s.coroStats queueId
  else
    s.ioStats queueId

/-- The `_coroQueues` vector length computed by both constructors:
`-1` → `std::thread::hardware_concurrency()`, `0` → 1, otherwise the `int`
converted to `size_t` (mod 2^64). -/
def coroThreadCount (hardwareConcurrency : Nat) (numCoroutineThreads : Int) : Nat :=
  if numCoroutineThreads = -1 then hardwareConcurrency
  else if numCoroutineThreads = 0 then 1
  else (numCoroutineThreads % (USIZE : Int)).toNat

/-- The `_ioQueues` / `_sharedIoQueues` vector length computed by both
constructors: `≤ 0` → 1, otherwise the `int` converted to `size_t`. -/
def ioThreadCount (numIoThreads : Int) : Nat :=
  if numIoThreads ≤ 0 then 1 else (numIoThreads % (USIZE : Int)).toNat

/-- Embedding of `DispatcherCore::DispatcherCore(int, int, bool)` (impl lines 25–45):
sizes the three vectors, pins coroutine queue `i` to core
`i % hardware_concurrency` when requested, leaves load balancing off,
the terminated flag clear, and the `Any` range at `[0, N)`. -/
def DispatcherCore.construct (hardwareConcurrency : Nat)
    (numCoroutineThreads numIoThreads : Int)
    (pinCoroutineThreadsToCores : Bool) : DispatcherCore :=
  let nCoro := coroThreadCount hardwareConcurrency numCoroutineThreads
  let nIo := ioThreadCount numIoThreads
  { coroQueues := (List.range nCoro).map (fun i =>
      { pinnedCore := if pinCoroutineThreadsToCores
                      then some (i % hardwareConcurrency) else none }),
    sharedIoQueues := List.replicate nIo default,
    ioQueues := List.replicate nIo default,
    loadBalanceSharedIoQueues := false,
    terminated := false,
    coroQueueIdRangeForAny := (0, nCoro) }

/-- The `Configuration` fields `DispatcherCore` reads (spec §6); the class
itself is outside the provided sources. -/
structure Configuration where
  numCoroutineThreads : Int := -1
  numIoThreads : Int := 1
  pinCoroutineThreadsToCores : Bool := false
  coroQueueIdRangeForAny : Nat × Nat := (0, 0)
  loadBalanceSharedIoQueues : Bool := false
  deriving Repr, DecidableEq

/-- Embedding of `DispatcherCore::DispatcherCore(const Configuration&)` (impl lines
47–73): like the three-argument constructor, then overwrites the default
`[0, N)` range with the configured one only when that is non-empty and within
bounds (`first < second && first < N && second <= N`). -/
def DispatcherCore.constructFromConfig (hardwareConcurrency : Nat)
    (config : Configuration) : DispatcherCore :=
  let base := DispatcherCore.construct hardwareConcurrency
    config.numCoroutineThreads config.numIoThreads config.pinCoroutineThreadsToCores
  let r := config.coroQueueIdRangeForAny
  if r.1 < r.2 ∧ r.1 < base.coroQueues.length ∧ r.2 ≤ base.coroQueues.length then
    { base with coroQueueIdRangeForAny := r }
  else
    base

/-- Conversion of a `size_t` to `int` (twos-complement truncation to 32
bits), as in `return _coroQueues.size();`. -/
def toInt32 (n : Nat) : Int :=
  if n % 2 ^ 32 < 2 ^ 31 then ((n % 2 ^ 32 : Nat) : Int)
  else ((n % 2 ^ 32 : Nat) : Int) - 2 ^ 32

/-- Embedding of `DispatcherCore::getNumCoroutineThreads` (impl lines 416–420). -/
def DispatcherCore.getNumCoroutineThreads (s : DispatcherCore) : Int :=
  toInt32 s.coroQueues.length

/-- Embedding of `DispatcherCore::getNumIoThreads` (impl lines 422–426). -/
def DispatcherCore.getNumIoThreads (s : DispatcherCore) : Int :=
  toInt32 s.ioQueues.length

/-- Embedding of `DispatcherCore::getCoroQueueIdRangeForAny` (impl lines 428–432). -/
def DispatcherCore.getCoroQueueIdRangeForAny (s : DispatcherCore) : Nat × Nat :=
  s.coroQueueIdRangeForAny

/-- The state after `_coroQueues.at(i).enqueue(t)`: queue `i` gets `t`
appended, every other queue is untouched. -/
def DispatcherCore.enqueueAt (s : DispatcherCore) (i : Nat) (t : Task) : DispatcherCore :=
  { s with coroQueues := s.coroQueues.set i ((s.coroQueues.getD i default).enqueue t) }

/-- The state produced by the non-load-balanced `Any` branch of
`postAsyncIo`: the task goes to shared queue 0 and every private queue has
its empty condition signalled with `false`. -/
def DispatcherCore.sharedZeroState (s : DispatcherCore) (t : IoTask) : DispatcherCore :=
  { s with
    sharedIoQueues := s.sharedIoQueues.set 0 ((s.sharedIoQueues.getD 0 default).enqueue t),
    ioQueues := s.ioQueues.map (fun q => q.signalEmptyCondition false) }

/-- The state after a shared I/O queue accepted a load-balanced task: queue
`p` of `_sharedIoQueues` gets `t` appended, everything else is untouched. -/
def DispatcherCore.sharedEnqueueAt (s : DispatcherCore) (p : Nat) (t : IoTask) : DispatcherCore :=
  { s with
    sharedIoQueues := s.sharedIoQueues.set p ((s.sharedIoQueues.getD p default).enqueue t) }

/-- Which shared I/O queue of the resulting core holds a task, for reading the
routing decision off a `postAsyncIo` result on a core whose shared queues
started empty. -/
def receivingSharedQueue (r : Except String (Nat × DispatcherCore)) : Option Nat :=
  match r with
  | .ok (_, s) => s.sharedIoQueues.findIdx? (fun q => !q.tasks.isEmpty)
  | .error _ => none

/-- A dispatcher with load balancing on and two empty shared I/O queues. -/
def c2CoreA : DispatcherCore :=
  { coroQueues := [{}],
    sharedIoQueues := [{}, {}],
    ioQueues := [{}],
    loadBalanceSharedIoQueues := true,
    coroQueueIdRangeForAny := (0, 1) }

/-- A second, distinct dispatcher with load balancing on and two empty shared
I/O queues (two coroutine queues, so it differs from `c2CoreA`). -/
def c2CoreB : DispatcherCore :=
  { coroQueues := [{}, {}],
    sharedIoQueues := [{}, {}],
    ioQueues := [{}],
    loadBalanceSharedIoQueues := true,
    coroQueueIdRangeForAny := (0, 2) }

/-- A dispatcher with load balancing on whose shared queue 0 is full
(capacity 0) and whose shared queue 1 can accept, for exercising the
try-enqueue skip. -/
def lbSkipCore : DispatcherCore :=
  { coroQueues := [{}],
    sharedIoQueues := [{ capacity := 0 }, {}],
    ioQueues := [{}],
    loadBalanceSharedIoQueues := true,
    coroQueueIdRangeForAny := (0, 1) }

/-- A configuration whose `Any` range `[2, 9)` overshoots its 4 coroutine
queues, exercising the silent fallback to `[0, N)`. -/
def c8Config : Configuration :=
  { numCoroutineThreads := 4,
    numIoThreads := 1,
    pinCoroutineThreadsToCores := false,
    coroQueueIdRangeForAny := (2, 9),
    loadBalanceSharedIoQueues := false }

/-- A queue prefill of `n` tasks, for concrete scenarios. -/
def sampleTasks (n : Nat) : List Task := List.replicate n { queueId := 0 }

/-- Scenario S3 of the spec: a dispatcher with 4 coroutine queues prefilled to
depths `[5, 2, 2, 7]` and the default `Any` range `[0, 4)`. -/
def s3Core : DispatcherCore :=
  { coroQueues := [{ tasks := sampleTasks 5 }, { tasks := sampleTasks 2 },
                   { tasks := sampleTasks 2 }, { tasks := sampleTasks 7 }],
    sharedIoQueues := [default],
    ioQueues := [default],
    coroQueueIdRangeForAny := (0, 4) }

/-! Lemmas about the `Any` selection loop of `post` -/

theorem anyLoop_of_none_smaller (sizes : Nat → Nat) :
    ∀ (n lo idx nt : Nat), (∀ k, k < n → nt ≤ sizes (lo + k)) →
      anyLoop sizes idx nt (List.range' lo n) = (idx, nt) := by
  intro n
  induction n with
  | zero => intro lo idx nt _; rfl
  | succ n ih =>
    intro lo idx nt h
    have h0 : ¬ sizes lo < nt := by
      have := h 0 (Nat.succ_pos n)
      simpa using Nat.not_lt.mpr (by simpa using this)
    rw [List.range'_succ]
    by_cases hnt : nt = 0
    · simp [anyLoop, h0, hnt]
    · have hrest : ∀ k, k < n → nt ≤ sizes (lo + 1 + k) := by
        intro k hk
        have := h (k + 1) (by omega)
        rwa [show lo + (k + 1) = lo + 1 + k by omega] at this
      simp only [anyLoop, h0, if_false, hnt, ite_false]
      exact ih (lo + 1) idx nt hrest

theorem anyLoop_finds_least_argmin (sizes : Nat → Nat) :
    ∀ (n lo idx nt : Nat), (∃ k, k < n ∧ sizes (lo + k) < nt) →
      ∃ k, k < n ∧
        anyLoop sizes idx nt (List.range' lo n) = (lo + k, sizes (lo + k)) ∧
        sizes (lo + k) < nt ∧
        (∀ j, j < k → sizes (lo + k) < sizes (lo + j)) ∧
        (∀ j, j < n → sizes (lo + k) ≤ sizes (lo + j)) := by
  intro n
  induction n with
  | zero => rintro lo idx nt ⟨k, hk, -⟩; exact absurd hk (Nat.not_lt_zero k)
  | succ n ih =>
    intro lo idx nt hex
    rw [List.range'_succ]
    by_cases hlt : sizes lo < nt
    · by_cases hz : sizes lo = 0
      · have h0 : 0 < nt := by omega
        refine ⟨0, Nat.succ_pos n, ?_, by simpa using hlt, by omega, ?_⟩
        · simp [anyLoop, hz, h0]
        · intro j _; simp [hz]
      · have hrec : anyLoop sizes idx nt (lo :: List.range' (lo + 1) n)
            = anyLoop sizes lo (sizes lo) (List.range' (lo + 1) n) := by
          simp [anyLoop, hlt, hz]
        by_cases hex2 : ∃ k, k < n ∧ sizes (lo + 1 + k) < sizes lo
        · obtain ⟨k, hk, heq, hlt2, hstrict, hle⟩ := ih (lo + 1) lo (sizes lo) hex2
          have e : lo + 1 + k = lo + (k + 1) := by omega
          refine ⟨k + 1, by omega, ?_, ?_, ?_, ?_⟩
          · rw [hrec, heq, e]
          · rw [← e]; omega
          · intro j hj
            match j, hj with
            | 0, _ => rw [← e]; simpa using hlt2
            | j + 1, hj =>
              have := hstrict j (by omega)
              rw [show lo + 1 + j = lo + (j + 1) by omega] at this
              rwa [← e]
          · intro j hj
            match j, hj with
            | 0, _ => rw [← e]; simpa using Nat.le_of_lt hlt2
            | j + 1, hj =>
              have := hle j (by omega)
              rw [show lo + 1 + j = lo + (j + 1) by omega] at this
              rwa [← e]
        · push_neg at hex2
          have hge : ∀ k, k < n → sizes lo ≤ sizes (lo + 1 + k) := hex2
          refine ⟨0, Nat.succ_pos n, ?_, by simpa using hlt, by omega, ?_⟩
          · rw [hrec, anyLoop_of_none_smaller sizes n (lo + 1) lo (sizes lo) hge]
            simp
          · intro j hj
            match j, hj with
            | 0, _ => simp
            | j + 1, hj =>
              have := hge j (by omega)
              rw [show lo + 1 + j = lo + (j + 1) by omega] at this
              simpa using this
    · obtain ⟨k0, hk0, hs0⟩ := hex
      have hnz : ¬ nt = 0 := by omega
      have hnt_le : nt ≤ sizes lo := Nat.not_lt.mp hlt
      have hrec : anyLoop sizes idx nt (lo :: List.range' (lo + 1) n)
          = anyLoop sizes idx nt (List.range' (lo + 1) n) := by
        simp [anyLoop, hlt, hnz]
      have hk0' : k0 ≠ 0 := by
        intro h; subst h; simp at hs0; omega
      have hex2 : ∃ k, k < n ∧ sizes (lo + 1 + k) < nt := by
        refine ⟨k0 - 1, by omega, ?_⟩
        rwa [show lo + 1 + (k0 - 1) = lo + k0 by omega]
      obtain ⟨k, hk, heq, hlt2, hstrict, hle⟩ := ih (lo + 1) idx nt hex2
      have e : lo + 1 + k = lo + (k + 1) := by omega
      refine ⟨k + 1, by omega, ?_, ?_, ?_, ?_⟩
      · rw [hrec, heq, e]
      · rw [← e]; omega
      · intro j hj
        match j, hj with
        | 0, _ => rw [← e]; simp; omega
        | j + 1, hj =>
          have := hstrict j (by omega)
          rw [show lo + 1 + j = lo + (j + 1) by omega] at this
          rwa [← e]
      · intro j hj
        match j, hj with
        | 0, _ => rw [← e]; simp; omega
        | j + 1, hj =>
          have := hle j (by omega)
          rw [show lo + 1 + j = lo + (j + 1) by omega] at this
          rwa [← e]

/-! Claim C1 -/

/-- Claim C1: For a task posted with `queueId == Any` on a `DispatcherCore` whose
`Any` range `[lo, hi)` is non-empty and within bounds (which every constructed
core guarantees), `post` binds the task to the lowest-index queue whose size at
scan time is minimal over the range: the selected index lies in `[lo, hi)`,
its size is ≤ that of every queue in the range, every lower-index queue of the
range is strictly deeper, and the task is enqueued exactly there with its
queue id overwritten to the selected index. -/
theorem post_any_routes_to_shortest_queue (s : DispatcherCore) (t : Task)
    (hq : t.queueId = QueueIdAny)
    (hrange : s.coroQueueIdRangeForAny.1 < s.coroQueueIdRangeForAny.2)
    (hbound : s.coroQueueIdRangeForAny.2 ≤ s.coroQueues.length)
    (hsz : s.coroQueueSize s.coroQueueIdRangeForAny.1 < USIZEMAX) :
    s.coroQueueIdRangeForAny.1 ≤ s.selectAnyIndex ∧
    s.selectAnyIndex < s.coroQueueIdRangeForAny.2 ∧
    (∀ j, s.coroQueueIdRangeForAny.1 ≤ j → j < s.coroQueueIdRangeForAny.2 →
      s.coroQueueSize s.selectAnyIndex ≤ s.coroQueueSize j) ∧
    (∀ j, s.coroQueueIdRangeForAny.1 ≤ j → j < s.selectAnyIndex →
      s.coroQueueSize s.selectAnyIndex < s.coroQueueSize j) ∧
    s.post (some t) =
      .ok (s.enqueueAt s.selectAnyIndex { t with queueId := (s.selectAnyIndex : Int) }) := by
  have hex : ∃ k, k < s.coroQueueIdRangeForAny.2 - s.coroQueueIdRangeForAny.1 ∧
      s.coroQueueSize (s.coroQueueIdRangeForAny.1 + k) < USIZEMAX :=
    ⟨0, by omega, by simpa using hsz⟩
  obtain ⟨k, hk, heq, hltmax, hstrict, hle⟩ :=
    anyLoop_finds_least_argmin s.coroQueueSize
      (s.coroQueueIdRangeForAny.2 - s.coroQueueIdRangeForAny.1)
      s.coroQueueIdRangeForAny.1 0 USIZEMAX hex
  have hsel : s.selectAnyIndex = s.coroQueueIdRangeForAny.1 + k := by
    unfold DispatcherCore.selectAnyIndex
    rw [heq]
  have hin2 : s.selectAnyIndex < s.coroQueueIdRangeForAny.2 := by omega
  have hidx : s.selectAnyIndex < s.coroQueues.length := by omega
  refine ⟨by omega, hin2, ?_, ?_, ?_⟩
  · intro j hj1 hj2
    have := hle (j - s.coroQueueIdRangeForAny.1) (by omega)
    rw [show s.coroQueueIdRangeForAny.1 + (j - s.coroQueueIdRangeForAny.1) = j by omega] at this
    rwa [hsel]
  · intro j hj1 hj2
    have := hstrict (j - s.coroQueueIdRangeForAny.1) (by omega)
    rw [show s.coroQueueIdRangeForAny.1 + (j - s.coroQueueIdRangeForAny.1) = j by omega] at this
    rwa [hsel]
  · have hcond : (0 : Int) ≤ (s.selectAnyIndex : Int) ∧
        (s.selectAnyIndex : Int) < (s.coroQueues.length : Int) :=
      ⟨Int.natCast_nonneg _, by exact_mod_cast hidx⟩
    simp [DispatcherCore.post, DispatcherCore.enqueueAt, hq, hcond, Int.toNat_natCast]

/-- Witness for C1, instantiated at scenario S3 of the spec (queue depths
`[5, 2, 2, 7]`, default range `[0, 4)`): the hypotheses hold, the task is
routed to queue 1, and that queue is minimal over the range. -/
theorem post_any_routes_to_shortest_queue_witness :
    (({ queueId := QueueIdAny } : Task)).queueId = QueueIdAny ∧
    s3Core.coroQueueIdRangeForAny.1 < s3Core.coroQueueIdRangeForAny.2 ∧
    s3Core.coroQueueIdRangeForAny.2 ≤ s3Core.coroQueues.length ∧
    s3Core.coroQueueSize s3Core.coroQueueIdRangeForAny.1 < USIZEMAX ∧
    s3Core.selectAnyIndex = 1 ∧
    (∀ j, s3Core.coroQueueIdRangeForAny.1 ≤ j → j < s3Core.coroQueueIdRangeForAny.2 →
      s3Core.coroQueueSize s3Core.selectAnyIndex ≤ s3Core.coroQueueSize j) :=
  ⟨rfl, by decide, by decide, by decide, by decide,
    (post_any_routes_to_shortest_queue s3Core { queueId := QueueIdAny } rfl
      (by decide) (by decide) (by decide)).2.2.1⟩

/-! Claim C3 -/

/-- Claim C3: `DispatcherCore::terminate` is idempotent: starting from a
not-yet-terminated core, the first invocation emits the per-queue terminate
calls for every coroutine queue, then every private I/O queue, then every
shared I/O queue, in that order, and marks them all terminated; a second
invocation is a no-op (same state, no terminate calls); and the destructor is
exactly `terminate`. -/
theorem terminate_idempotent_ordered (s : DispatcherCore)
    (h : s.terminated = false) :
    (s.terminate).2 =
      (List.range s.coroQueues.length).map TermEvent.coro ++
      (List.range s.ioQueues.length).map TermEvent.privateIo ++
      (List.range s.sharedIoQueues.length).map TermEvent.sharedIo ∧
    (∀ q ∈ (s.terminate).1.coroQueues, q.terminated = true) ∧
    (∀ q ∈ (s.terminate).1.ioQueues, q.terminated = true) ∧
    (∀ q ∈ (s.terminate).1.sharedIoQueues, q.terminated = true) ∧
    (s.terminate).1.terminate = ((s.terminate).1, []) ∧
    s.destructor = s.terminate := by
  refine ⟨by simp [DispatcherCore.terminate, h], ?_, ?_, ?_, ?_, rfl⟩
  · intro q hq
    simp only [DispatcherCore.terminate, h, Bool.false_eq_true, if_false,
      List.mem_map] at hq
    obtain ⟨q', -, rfl⟩ := hq
    rfl
  · intro q hq
    simp only [DispatcherCore.terminate, h, Bool.false_eq_true, if_false,
      List.mem_map] at hq
    obtain ⟨q', -, rfl⟩ := hq
    rfl
  · intro q hq
    simp only [DispatcherCore.terminate, h, Bool.false_eq_true, if_false,
      List.mem_map] at hq
    obtain ⟨q', -, rfl⟩ := hq
    rfl
  · have h1 : (s.terminate).1.terminated = true := by
      simp [DispatcherCore.terminate, h]
    have h2 : ∀ u : DispatcherCore, u.terminated = true → u.terminate = (u, []) := by
      intro u hu
      simp [DispatcherCore.terminate, hu]
    exact h2 _ h1

/-- Witness for C3 at the concrete S3 core. -/
theorem terminate_idempotent_ordered_witness :
    s3Core.terminated = false ∧
    (∀ q ∈ (s3Core.terminate).1.coroQueues, q.terminated = true) ∧
    (s3Core.terminate).1.terminate = ((s3Core.terminate).1, []) :=
  ⟨rfl, (terminate_idempotent_ordered s3Core rfl).2.1,
    (terminate_idempotent_ordered s3Core rfl).2.2.2.2.1⟩

/-! Claim C4 -/

/-- Claim C4: Posting an I/O task with `queueId == Any` while
`_loadBalanceSharedIoQueues` is false succeeds without touching the static
round-robin counter: the task is appended to shared I/O queue 0, every other
shared queue is untouched, every private I/O queue has its empty condition
signalled `false`, and no private queue receives the task. -/
theorem postAsyncIo_any_no_load_balance (g : Nat) (s : DispatcherCore) (t : IoTask)
    (hq : t.queueId = QueueIdAny)
    (hlb : s.loadBalanceSharedIoQueues = false)
    (hne : 0 < s.sharedIoQueues.length) :
    s.postAsyncIo g (some t) = .ok (g, s.sharedZeroState t) ∧
    ((s.sharedZeroState t).sharedIoQueues.getD 0 default).tasks =
      (s.sharedIoQueues.getD 0 default).tasks ++ [t] ∧
    (∀ j, 0 < j → (s.sharedZeroState t).sharedIoQueues.getD j default =
      s.sharedIoQueues.getD j default) ∧
    (∀ q ∈ (s.sharedZeroState t).ioQueues, q.emptyCond = false) ∧
    (∀ i, ((s.sharedZeroState t).ioQueues.getD i default).tasks =
      (s.ioQueues.getD i default).tasks) := by
  refine ⟨?_, ?_, ?_, ?_, ?_⟩
  · simp [DispatcherCore.postAsyncIo, DispatcherCore.sharedZeroState, hq, hlb]
  · match hQ : s.sharedIoQueues with
    | [] => rw [hQ] at hne; simp at hne
    | q :: rest => simp [DispatcherCore.sharedZeroState, hQ, IoQueue.enqueue]
  · intro j hj
    match hQ : s.sharedIoQueues with
    | [] => simp [DispatcherCore.sharedZeroState, hQ]
    | q :: rest =>
      match j, hj with
      | j + 1, _ => simp [DispatcherCore.sharedZeroState, hQ]
  · intro q hq'
    simp only [DispatcherCore.sharedZeroState, List.mem_map] at hq'
    obtain ⟨q', -, rfl⟩ := hq'
    rfl
  · intro i
    simp only [DispatcherCore.sharedZeroState]
    by_cases hi : i < s.ioQueues.length
    · have hi' : i < (s.ioQueues.map (fun q => q.signalEmptyCondition false)).length := by
        simpa using hi
      rw [List.getD_eq_getElem _ _ hi', List.getD_eq_getElem _ _ hi]
      simp [IoQueue.signalEmptyCondition]
    · rw [List.getD_eq_default _ _ (by simpa using Nat.le_of_not_lt hi),
        List.getD_eq_default _ _ (Nat.le_of_not_lt hi)]

/-- Witness for C4 at the concrete S3 core (load balancing off, one shared
queue). -/
theorem postAsyncIo_any_no_load_balance_witness :
    ({ queueId := QueueIdAny } : IoTask).queueId = QueueIdAny ∧
    s3Core.loadBalanceSharedIoQueues = false ∧
    0 < s3Core.sharedIoQueues.length ∧
    s3Core.postAsyncIo 0 (some { queueId := QueueIdAny }) =
      .ok (0, s3Core.sharedZeroState { queueId := QueueIdAny }) :=
  ⟨rfl, rfl, by decide,
    (postAsyncIo_any_no_load_balance 0 s3Core { queueId := QueueIdAny } rfl rfl (by decide)).1⟩

/-! Lemmas about the load-balanced round-robin loop -/

/-- Within `n` consecutive probes the round-robin position sequence
`(g+1) % n, (g+2) % n, …` reaches any requested residue `i < n`. -/
theorem probe_hits (g n i : Nat) (hn : 0 < n) (hi : i < n) :
    ∃ k, 1 ≤ k ∧ k ≤ n ∧ (g + k) % n = i := by
  have hr : g % n < n := Nat.mod_lt _ hn
  refine ⟨(i + n - (g % n + 1)) % n + 1, by omega, ?_, ?_⟩
  · have : (i + n - (g % n + 1)) % n < n := Nat.mod_lt _ hn
    omega
  · have key : ∀ y, (g + y) % n = (g % n + y) % n := by
      intro y
      conv_lhs => rw [← Nat.mod_add_div g n]
      rw [Nat.add_right_comm, Nat.add_mul_mod_self_left]
    rw [key]
    by_cases hcase : i + n - (g % n + 1) < n
    · rw [Nat.mod_eq_of_lt hcase]
      have he : g % n + (i + n - (g % n + 1) + 1) = i + n := by omega
      rw [he, Nat.add_mod_right, Nat.mod_eq_of_lt hi]
    · have h2n : i + n - (g % n + 1) < 2 * n := by omega
      have hb : (i + n - (g % n + 1)) % n = i + n - (g % n + 1) - n := by
        rw [Nat.mod_eq_sub_mod (Nat.le_of_not_lt hcase),
          Nat.mod_eq_of_lt (by omega)]
      rw [hb]
      have he : g % n + (i + n - (g % n + 1) - n + 1) = i := by omega
      rw [he, Nat.mod_eq_of_lt hi]

/-- One unfolding step of `lbLoop`. -/
theorem lbLoop_succ (qs : List IoQueue) (t : IoTask) (index fuel : Nat) :
    lbLoop qs t index (fuel + 1) =
      match (qs.getD ((index + 1) % USIZE % qs.length) default).tryEnqueue t with
      | some q' => some ((index + 1) % USIZE,
          qs.set ((index + 1) % USIZE % qs.length) q', (index + 1) % USIZE % qs.length)
      | none => lbLoop qs t ((index + 1) % USIZE) fuel := rfl

/-- Characterisation of `lbLoop`: if the `k`-th probe (1-based) is the first
whose queue can accept the task, and the static index does not wrap in the
window, the loop stops there, having skipped exactly the full queues before
it. -/
theorem lbLoop_succeeds (qs : List IoQueue) (t : IoTask) :
    ∀ (fuel g k : Nat), 1 ≤ k → k ≤ fuel → g + k < USIZE →
    ((qs.getD ((g + k) % qs.length) default).tasks.length <
      (qs.getD ((g + k) % qs.length) default).capacity) →
    (∀ m, 1 ≤ m → m < k →
      ¬ ((qs.getD ((g + m) % qs.length) default).tasks.length <
        (qs.getD ((g + m) % qs.length) default).capacity)) →
    lbLoop qs t g fuel = some (g + k,
      qs.set ((g + k) % qs.length)
        ((qs.getD ((g + k) % qs.length) default).enqueue t),
      (g + k) % qs.length) := by
  intro fuel
  induction fuel with
  | zero => intro g k h1 h2 _ _ _; omega
  | succ fuel ih =>
    intro g k h1 h2 hw hacc hfull
    have hg1 : (g + 1) % USIZE = g + 1 := Nat.mod_eq_of_lt (by omega)
    by_cases hk1 : k = 1
    · subst hk1
      rw [lbLoop_succ, hg1, show (qs.getD ((g + 1) % qs.length) default).tryEnqueue t
          = some ((qs.getD ((g + 1) % qs.length) default).enqueue t) from by
        rw [IoQueue.tryEnqueue, if_pos hacc]]
    · have hfail := hfull 1 (le_refl 1) (by omega)
      rw [lbLoop_succ, hg1, show (qs.getD ((g + 1) % qs.length) default).tryEnqueue t
          = none from by rw [IoQueue.tryEnqueue, if_neg hfail]]
      have e : g + 1 + (k - 1) = g + k := by omega
      have hacc' := hacc
      rw [← e] at hacc'
      have hfull' : ∀ m, 1 ≤ m → m < k - 1 →
          ¬ ((qs.getD ((g + 1 + m) % qs.length) default).tasks.length <
            (qs.getD ((g + 1 + m) % qs.length) default).capacity) := by
        intro m hm1 hm2
        have := hfull (m + 1) (by omega) (by omega)
        rwa [show g + (m + 1) = g + 1 + m by omega] at this
      have := ih (g + 1) (k - 1) (by omega) (by omega) (by omega) hacc' hfull'
      rw [this, e]

/-! Claim C5 -/

/-- Claim C5: With load balancing on, a `queueId == Any` I/O task goes to
exactly one shared queue: the loop advances the round-robin index and takes
the first probed queue whose `tryEnqueue` succeeds. There is a probe count
`k ≤ n` such that `postAsyncIo` returns successfully with the static index
advanced to `g + k`, the task appended to the shared queue at position
`(g + k) % n` (all other queues untouched), that queue not full, and every
queue probed before it (positions `(g + m) % n`, `1 ≤ m < k`) full. The
hypotheses: some shared queue can accept (otherwise the C++ `while (1)`
never returns) and the 64-bit index does not wrap inside the window. -/
theorem postAsyncIo_any_load_balanced (g : Nat) (s : DispatcherCore) (t : IoTask)
    (hq : t.queueId = QueueIdAny)
    (hlb : s.loadBalanceSharedIoQueues = true)
    (hn : 0 < s.sharedIoQueues.length)
    (hw : g + s.sharedIoQueues.length < USIZE)
    (hne : ∃ i, i < s.sharedIoQueues.length ∧
      (s.sharedIoQueues.getD i default).tasks.length <
        (s.sharedIoQueues.getD i default).capacity) :
    ∃ k, 1 ≤ k ∧ k ≤ s.sharedIoQueues.length ∧
      s.postAsyncIo g (some t) =
        .ok (g + k, s.sharedEnqueueAt ((g + k) % s.sharedIoQueues.length) t) ∧
      ((s.sharedIoQueues.getD ((g + k) % s.sharedIoQueues.length) default).tasks.length <
        (s.sharedIoQueues.getD ((g + k) % s.sharedIoQueues.length) default).capacity) ∧
      (∀ m, 1 ≤ m → m < k →
        ¬ ((s.sharedIoQueues.getD ((g + m) % s.sharedIoQueues.length) default).tasks.length <
          (s.sharedIoQueues.getD ((g + m) % s.sharedIoQueues.length) default).capacity)) := by
  obtain ⟨i, hi, hfree⟩ := hne
  obtain ⟨k₀, hk₀1, hk₀n, hk₀i⟩ := probe_hits g s.sharedIoQueues.length i hn hi
  have hP : ∃ k, 1 ≤ k ∧
      (s.sharedIoQueues.getD ((g + k) % s.sharedIoQueues.length) default).tasks.length <
        (s.sharedIoQueues.getD ((g + k) % s.sharedIoQueues.length) default).capacity :=
    ⟨k₀, hk₀1, by rwa [hk₀i]⟩
  classical
  refine ⟨Nat.find hP, (Nat.find_spec hP).1, ?_, ?_, (Nat.find_spec hP).2, ?_⟩
  · exact le_trans (Nat.find_min' hP ⟨hk₀1, by rwa [hk₀i]⟩) hk₀n
  · have hk := Nat.find_spec hP
    have hkn : Nat.find hP ≤ s.sharedIoQueues.length :=
      le_trans (Nat.find_min' hP ⟨hk₀1, by rwa [hk₀i]⟩) hk₀n
    have hloop := lbLoop_succeeds s.sharedIoQueues t (s.sharedIoQueues.length + 1)
      g (Nat.find hP) hk.1 (by omega) (by omega) hk.2 ?_
    · simp [DispatcherCore.postAsyncIo, hq, hlb, hloop, DispatcherCore.sharedEnqueueAt]
    · intro m hm1 hm2
      have := Nat.find_min hP hm2
      simp only [not_and] at this
      exact this hm1
  · intro m hm1 hm2
    have := Nat.find_min hP hm2
    simp only [not_and] at this
    exact this hm1

/-- Witness for C5 at `lbSkipCore` (shared queue 0 full, queue 1 free,
static index 1): the full queue is probed first and skipped. -/
theorem postAsyncIo_any_load_balanced_witness :
    ({ queueId := QueueIdAny } : IoTask).queueId = QueueIdAny ∧
    lbSkipCore.loadBalanceSharedIoQueues = true ∧
    0 < lbSkipCore.sharedIoQueues.length ∧
    1 + lbSkipCore.sharedIoQueues.length < USIZE ∧
    (∃ i, i < lbSkipCore.sharedIoQueues.length ∧
      (lbSkipCore.sharedIoQueues.getD i default).tasks.length <
        (lbSkipCore.sharedIoQueues.getD i default).capacity) ∧
    (∃ k, 1 ≤ k ∧ k ≤ lbSkipCore.sharedIoQueues.length ∧
      lbSkipCore.postAsyncIo 1 (some { queueId := QueueIdAny }) =
        .ok (1 + k, lbSkipCore.sharedEnqueueAt ((1 + k) % lbSkipCore.sharedIoQueues.length)
          { queueId := QueueIdAny }) ∧
      ((lbSkipCore.sharedIoQueues.getD ((1 + k) % lbSkipCore.sharedIoQueues.length)
          default).tasks.length <
        (lbSkipCore.sharedIoQueues.getD ((1 + k) % lbSkipCore.sharedIoQueues.length)
          default).capacity) ∧
      (∀ m, 1 ≤ m → m < k →
        ¬ ((lbSkipCore.sharedIoQueues.getD ((1 + m) % lbSkipCore.sharedIoQueues.length)
            default).tasks.length <
          (lbSkipCore.sharedIoQueues.getD ((1 + m) % lbSkipCore.sharedIoQueues.length)
            default).capacity))) :=
  ⟨rfl, rfl, by decide, by decide, ⟨1, by decide, by decide⟩,
    postAsyncIo_any_load_balanced 1 lbSkipCore { queueId := QueueIdAny } rfl rfl
      (by decide) (by decide) ⟨1, by decide, by decide⟩⟩

/-! Claim C2 -/

/-- Claim C2 is false on the code: `postAsyncIo` keeps its round-robin index in
a function-local `static size_t` (impl line 384), which in C++ is one object
for the whole process, not per `DispatcherCore`. Concretely: with the process
counter at 0, instance `c2CoreB` alone routes its next `Any` submission to
shared queue 1; but after one `postAsyncIo` on the distinct instance
`c2CoreA` (which advances the shared counter from 0 to 1), the same
submission on `c2CoreB` lands on shared queue 0 instead. -/
theorem postAsyncIo_rr_cross_instance_interference :
    c2CoreA ≠ c2CoreB ∧
    receivingSharedQueue (c2CoreB.postAsyncIo 0 (some { queueId := QueueIdAny })) = some 1 ∧
    (c2CoreA.postAsyncIo 0 (some { queueId := QueueIdAny })).toOption.map Prod.fst = some 1 ∧
    receivingSharedQueue (c2CoreB.postAsyncIo 1 (some { queueId := QueueIdAny })) = some 0 := by
  decide

/-- Claim C2, amended: The round-robin index used by `postAsyncIo` for
`queueId == Any` under load balancing is a function-local static: a single
process-wide counter shared by every `DispatcherCore` instance. Whenever all
shared queues accept, a submission on instance `A` advances the counter from
`g` to `g + 1`, after which instance `B` selects shared queue
`(g + 2) % nB` instead of the `(g + 1) % nB` it would have selected without
the call on `A` — a different queue whenever `B` has at least two shared queues. -/
theorem postAsyncIo_rr_index_process_wide (g : Nat) (A B : DispatcherCore)
    (tA tB : IoTask)
    (hqA : tA.queueId = QueueIdAny) (hqB : tB.queueId = QueueIdAny)
    (hlbA : A.loadBalanceSharedIoQueues = true)
    (hlbB : B.loadBalanceSharedIoQueues = true)
    (hg : g + 2 < USIZE)
    (hA : ∀ q ∈ A.sharedIoQueues, q.tasks.length < q.capacity)
    (hAn : 0 < A.sharedIoQueues.length)
    (hB : ∀ q ∈ B.sharedIoQueues, q.tasks.length < q.capacity)
    (hBn : 2 ≤ B.sharedIoQueues.length) :
    A.postAsyncIo g (some tA) =
      .ok (g + 1, A.sharedEnqueueAt ((g + 1) % A.sharedIoQueues.length) tA) ∧
    B.postAsyncIo (g + 1) (some tB) =
      .ok (g + 2, B.sharedEnqueueAt ((g + 2) % B.sharedIoQueues.length) tB) ∧
    B.postAsyncIo g (some tB) =
      .ok (g + 1, B.sharedEnqueueAt ((g + 1) % B.sharedIoQueues.length) tB) ∧
    (g + 2) % B.sharedIoQueues.length ≠ (g + 1) % B.sharedIoQueues.length := by
  have first : ∀ (s : DispatcherCore) (t : IoTask) (g' : Nat),
      t.queueId = QueueIdAny → s.loadBalanceSharedIoQueues = true →
      0 < s.sharedIoQueues.length → g' + 1 < USIZE →
      (∀ q ∈ s.sharedIoQueues, q.tasks.length < q.capacity) →
      s.postAsyncIo g' (some t) =
        .ok (g' + 1, s.sharedEnqueueAt ((g' + 1) % s.sharedIoQueues.length) t) := by
    intro s t g' hq hlb hn hw hall
    have hp : (g' + 1) % s.sharedIoQueues.length < s.sharedIoQueues.length :=
      Nat.mod_lt _ hn
    have hacc : (s.sharedIoQueues.getD ((g' + 1) % s.sharedIoQueues.length) default).tasks.length <
        (s.sharedIoQueues.getD ((g' + 1) % s.sharedIoQueues.length) default).capacity := by
      rw [List.getD_eq_getElem _ _ hp]
      exact hall _ (List.getElem_mem hp)
    have hloop := lbLoop_succeeds s.sharedIoQueues t (s.sharedIoQueues.length + 1)
      g' 1 (le_refl 1) (by omega) (by omega) hacc (by omega)
    simp [DispatcherCore.postAsyncIo, hq, hlb, hloop, DispatcherCore.sharedEnqueueAt]
  refine ⟨first A tA g hqA hlbA hAn (by omega) hA,
    ?_, first B tB g hqB hlbB (by omega) (by omega) hB, ?_⟩
  · have := first B tB (g + 1) hqB hlbB (by omega) (by omega) hB
    rwa [show g + 1 + 1 = g + 2 by omega] at this
  · intro h
    have h1 : Nat.ModEq B.sharedIoQueues.length (g + 1) (g + 2) := h.symm
    have hdvd : B.sharedIoQueues.length ∣ (g + 2) - (g + 1) :=
      (Nat.modEq_iff_dvd' (by omega)).mp h1
    have hone : B.sharedIoQueues.length ∣ 1 := by
      rwa [show g + 2 - (g + 1) = 1 by omega] at hdvd
    have := Nat.le_of_dvd one_pos hone
    omega

/-- Witness for the amended C2 at the two concrete cores. -/
theorem postAsyncIo_rr_index_process_wide_witness :
    (({ queueId := QueueIdAny } : IoTask).queueId = QueueIdAny ∧
      c2CoreA.loadBalanceSharedIoQueues = true ∧
      c2CoreB.loadBalanceSharedIoQueues = true ∧
      0 + 2 < USIZE ∧
      (∀ q ∈ c2CoreA.sharedIoQueues, q.tasks.length < q.capacity) ∧
      0 < c2CoreA.sharedIoQueues.length ∧
      (∀ q ∈ c2CoreB.sharedIoQueues, q.tasks.length < q.capacity) ∧
      2 ≤ c2CoreB.sharedIoQueues.length) ∧
    c2CoreB.postAsyncIo (0 + 1) (some { queueId := QueueIdAny }) =
      .ok (0 + 2, c2CoreB.sharedEnqueueAt ((0 + 2) % c2CoreB.sharedIoQueues.length)
        { queueId := QueueIdAny }) ∧
    c2CoreB.postAsyncIo 0 (some { queueId := QueueIdAny }) =
      .ok (0 + 1, c2CoreB.sharedEnqueueAt ((0 + 1) % c2CoreB.sharedIoQueues.length)
        { queueId := QueueIdAny }) ∧
    (0 + 2) % c2CoreB.sharedIoQueues.length ≠ (0 + 1) % c2CoreB.sharedIoQueues.length :=
  ⟨⟨rfl, rfl, rfl, by decide, by decide, by decide, by decide, by decide⟩,
    (postAsyncIo_rr_index_process_wide 0 c2CoreA c2CoreB
      { queueId := QueueIdAny } { queueId := QueueIdAny } rfl rfl rfl rfl
      (by decide) (by decide) (by decide) (by decide) (by decide)).2⟩

/-! Claim C6 -/

theorem qstats_add_def (a b : QueueStatistics) :
    a + b = ⟨a.postedCount + b.postedCount, a.completedCount + b.completedCount,
      a.erroredCount + b.erroredCount, a.currentDepth + b.currentDepth,
      a.peakDepth + b.peakDepth, a.blockedTime + b.blockedTime⟩ := rfl

theorem qstats_add_zero (a : QueueStatistics) : a + ({} : QueueStatistics) = a := rfl

theorem qstats_zero_add (a : QueueStatistics) : ({} : QueueStatistics) + a = a := by
  cases a
  simp [qstats_add_def]

theorem qstats_add_assoc (a b c : QueueStatistics) : a + b + c = a + (b + c) := by
  cases a; cases b; cases c
  simp [qstats_add_def, Nat.add_assoc]

theorem statsFoldl_shift (l : List QueueStatistics) :
    ∀ a, l.foldl (· + ·) a = a + l.foldl (· + ·) ({} : QueueStatistics) := by
  induction l with
  | nil => intro a; simp [List.foldl, qstats_add_zero]
  | cons q l ih =>
    intro a
    simp only [List.foldl]
    rw [ih (a + q), ih (({} : QueueStatistics) + q), qstats_zero_add, qstats_add_assoc]

theorem statsFoldl_append (l₁ l₂ : List QueueStatistics) :
    (l₁ ++ l₂).foldl (· + ·) ({} : QueueStatistics) =
      l₁.foldl (· + ·) ({} : QueueStatistics) + l₂.foldl (· + ·) ({} : QueueStatistics) := by
  rw [List.foldl_append, statsFoldl_shift]

/-- Claim C6: For `size`, `empty` and `stats` with `type == All`: any queue id
other than the `All` sentinel (including `Any` and every concrete id) throws
"Cannot specify queue id"; with `queueId == All` each returns the aggregate
over every coroutine queue, every private I/O queue and every shared I/O
queue — the sum of sizes, the conjunction of emptiness, and the sum of
statistics respectively. -/
theorem introspection_all_selector (s : DispatcherCore) (queueId : Int)
    (hq : queueId ≠ QueueIdAll) :
    s.size QueueType.All queueId = .error "Cannot specify queue id" ∧
    s.empty QueueType.All queueId = .error "Cannot specify queue id" ∧
    s.stats QueueType.All queueId = .error "Cannot specify queue id" ∧
    s.size QueueType.All QueueIdAll =
      .ok ((s.coroQueues.map TaskQueue.size).sum +
        ((s.ioQueues.map IoQueue.size).sum + (s.sharedIoQueues.map IoQueue.size).sum)) ∧
    s.empty QueueType.All QueueIdAll =
      .ok (s.coroQueues.all TaskQueue.empty && s.ioQueues.all IoQueue.empty &&
        s.sharedIoQueues.all IoQueue.empty) ∧
    s.stats QueueType.All QueueIdAll =
      .ok ((s.coroQueues.map TaskQueue.statistics).foldl (· + ·) {} +
        ((s.ioQueues.map IoQueue.statistics).foldl (· + ·) {} +
          (s.sharedIoQueues.map IoQueue.statistics).foldl (· + ·) {})) := by
  refine ⟨?_, ?_, ?_, ?_, ?_, ?_⟩
  · simp [DispatcherCore.size, hq]
  · simp [DispatcherCore.empty, hq]
  · simp [DispatcherCore.stats, hq]
  · simp [DispatcherCore.size, DispatcherCore.coroSize, DispatcherCore.ioSize]
  · cases hc' : s.coroQueues.all TaskQueue.empty <;>
      cases hi' : s.ioQueues.all IoQueue.empty <;>
      cases hs' : s.sharedIoQueues.all IoQueue.empty <;>
      simp [DispatcherCore.empty, DispatcherCore.coroEmpty, DispatcherCore.ioEmpty,
        hc', hi', hs']
  · simp [DispatcherCore.stats, DispatcherCore.coroStats, DispatcherCore.ioStats]
    rw [statsFoldl_shift (List.map IoQueue.statistics s.sharedIoQueues)]

/-- Witness for C6 at `queueId == Any` on the S3 core (total size 16). -/
theorem introspection_all_selector_witness :
    QueueIdAny ≠ QueueIdAll ∧
    s3Core.size QueueType.All QueueIdAny = .error "Cannot specify queue id" ∧
    s3Core.size QueueType.All QueueIdAll = .ok 16 :=
  ⟨by decide, (introspection_all_selector s3Core QueueIdAny (by decide)).1, by decide⟩

/-! Claim C7 -/

/-- Claim C7: Posting a coroutine task whose queue id is a specific
(non-`Any`) value outside `[0, N)` — a too-large id or any negative id —
signals an error and enqueues the task nowhere: an id `≥ N` hits the explicit
"Queue id out of bounds" throw, and a negative id (converted to a huge
`size_t`) makes `_coroQueues.at` throw. In either case no queue state is
produced. -/
theorem post_specific_out_of_range (s : DispatcherCore) (t : Task)
    (hq : t.queueId ≠ QueueIdAny)
    (hout : t.queueId < 0 ∨ (s.coroQueues.length : Int) ≤ t.queueId) :
    ∃ e, s.post (some t) = .error e := by
  by_cases hge : (s.coroQueues.length : Int) ≤ t.queueId
  · exact ⟨"Queue id out of bounds", by simp [DispatcherCore.post, hq, hge, ge_iff_le]⟩
  · have hneg : t.queueId < 0 := by
      rcases hout with h | h
      · exact h
      · omega
    have h2 : ¬ (0 ≤ t.queueId) := by omega
    exact ⟨"vector::at out of range",
      by simp [DispatcherCore.post, hq, hge, h2, ge_iff_le]⟩

/-- Witness for C7 at the negative id `-5` on the S3 core. -/
theorem post_specific_out_of_range_witness :
    ({ queueId := -5 } : Task).queueId ≠ QueueIdAny ∧
    (({ queueId := -5 } : Task).queueId < 0 ∨
      (s3Core.coroQueues.length : Int) ≤ ({ queueId := -5 } : Task).queueId) ∧
    ∃ e, s3Core.post (some { queueId := -5 }) = .error e :=
  ⟨by decide, Or.inl (by decide),
    post_specific_out_of_range s3Core { queueId := -5 } (by decide) (Or.inl (by decide))⟩

/-! Claim C8 -/

/-- Claim C8: Constructing from a `Configuration` whose `coroQueueIdRangeForAny`
`[lo, hi)` is empty (`lo ≥ hi`) or out of bounds (`lo ≥ N` or `hi > N`, `N`
the number of coroutine queues) silently keeps the default range `[0, N)`
(the constructor is total — no error path exists); a non-empty in-bounds
range is taken verbatim. The last conjunct ties `N` to the constructed
queue count. -/
theorem constructFromConfig_range_fallback (hc : Nat) (config : Configuration) :
    ((config.coroQueueIdRangeForAny.2 ≤ config.coroQueueIdRangeForAny.1 ∨
      coroThreadCount hc config.numCoroutineThreads ≤ config.coroQueueIdRangeForAny.1 ∨
      coroThreadCount hc config.numCoroutineThreads < config.coroQueueIdRangeForAny.2) →
      (DispatcherCore.constructFromConfig hc config).getCoroQueueIdRangeForAny =
        (0, coroThreadCount hc config.numCoroutineThreads)) ∧
    (config.coroQueueIdRangeForAny.1 < config.coroQueueIdRangeForAny.2 →
      config.coroQueueIdRangeForAny.2 ≤ coroThreadCount hc config.numCoroutineThreads →
      (DispatcherCore.constructFromConfig hc config).getCoroQueueIdRangeForAny =
        config.coroQueueIdRangeForAny) ∧
    (DispatcherCore.constructFromConfig hc config).coroQueues.length =
      coroThreadCount hc config.numCoroutineThreads := by
  have hlen : (DispatcherCore.construct hc config.numCoroutineThreads config.numIoThreads
      config.pinCoroutineThreadsToCores).coroQueues.length =
      coroThreadCount hc config.numCoroutineThreads := by
    simp [DispatcherCore.construct]
  refine ⟨?_, ?_, ?_⟩
  · intro hbad
    have hneg : ¬ (config.coroQueueIdRangeForAny.1 < config.coroQueueIdRangeForAny.2 ∧
        config.coroQueueIdRangeForAny.1 <
          (DispatcherCore.construct hc config.numCoroutineThreads config.numIoThreads
            config.pinCoroutineThreadsToCores).coroQueues.length ∧
        config.coroQueueIdRangeForAny.2 ≤
          (DispatcherCore.construct hc config.numCoroutineThreads config.numIoThreads
            config.pinCoroutineThreadsToCores).coroQueues.length) := by
      rw [hlen]
      omega
    simp only [DispatcherCore.constructFromConfig, DispatcherCore.getCoroQueueIdRangeForAny,
      if_neg hneg]
    simp [DispatcherCore.construct]
  · intro h1 h2
    have hpos : config.coroQueueIdRangeForAny.1 < config.coroQueueIdRangeForAny.2 ∧
        config.coroQueueIdRangeForAny.1 <
          (DispatcherCore.construct hc config.numCoroutineThreads config.numIoThreads
            config.pinCoroutineThreadsToCores).coroQueues.length ∧
        config.coroQueueIdRangeForAny.2 ≤
          (DispatcherCore.construct hc config.numCoroutineThreads config.numIoThreads
            config.pinCoroutineThreadsToCores).coroQueues.length := by
      rw [hlen]
      exact ⟨h1, by omega, h2⟩
    simp only [DispatcherCore.constructFromConfig, DispatcherCore.getCoroQueueIdRangeForAny,
      if_pos hpos]
  · simp only [DispatcherCore.constructFromConfig]
    split <;> simp [DispatcherCore.construct]

/-- Witness for C8 at `c8Config` (4 coroutine queues, configured range
`[2, 9)` out of bounds → effective range `[0, 4)`). -/
theorem constructFromConfig_range_fallback_witness :
    (c8Config.coroQueueIdRangeForAny.2 ≤ c8Config.coroQueueIdRangeForAny.1 ∨
      coroThreadCount 8 c8Config.numCoroutineThreads ≤ c8Config.coroQueueIdRangeForAny.1 ∨
      coroThreadCount 8 c8Config.numCoroutineThreads < c8Config.coroQueueIdRangeForAny.2) ∧
    (DispatcherCore.constructFromConfig 8 c8Config).getCoroQueueIdRangeForAny =
      (0, coroThreadCount 8 c8Config.numCoroutineThreads) ∧
    coroThreadCount 8 c8Config.numCoroutineThreads = 4 :=
  ⟨by decide,
    (constructFromConfig_range_fallback 8 c8Config).1 (by decide),
    by decide⟩

/-! Claim C9 -/

/-- Round-trip of an `int` through `size_t` (vector size) and back to `int`
(`getNum…` return): within the 32-bit `int` range the value is recovered. -/
theorem toInt32_round (m : Int) (h1 : -2 ^ 31 ≤ m) (h2 : m < 2 ^ 31) :
    toInt32 ((m % (USIZE : Int)).toNat) = m := by
  have hU : (USIZE : Int) = 18446744073709551616 := by norm_num [USIZE]
  unfold toInt32
  rw [hU]
  have e32 : (2 : Nat) ^ 32 = 4294967296 := by norm_num
  have e31 : (2 : Nat) ^ 31 = 2147483648 := by norm_num
  rw [e32, e31]
  split <;> omega

/-- Claim C9: After `DispatcherCore(numCoroutineThreads, numIoThreads, pin)`,
`getNumCoroutineThreads()` returns the hardware concurrency for `-1`, `1` for
`0`, and `numCoroutineThreads` itself otherwise; `getNumIoThreads()` returns
`1` for any `numIoThreads ≤ 0` and `numIoThreads` otherwise. The bounds are
the C++ `int` range (and a realistic hardware concurrency below `2^31`). -/
theorem construct_thread_counts (hc : Nat) (nCoro nIo : Int) (pin : Bool)
    (hhc : hc < 2 ^ 31)
    (hc1 : -2 ^ 31 ≤ nCoro) (hc2 : nCoro < 2 ^ 31)
    (hi1 : -2 ^ 31 ≤ nIo) (hi2 : nIo < 2 ^ 31) :
    (nCoro = -1 →
      (DispatcherCore.construct hc nCoro nIo pin).getNumCoroutineThreads = (hc : Int)) ∧
    (nCoro = 0 →
      (DispatcherCore.construct hc nCoro nIo pin).getNumCoroutineThreads = 1) ∧
    (nCoro ≠ -1 → nCoro ≠ 0 →
      (DispatcherCore.construct hc nCoro nIo pin).getNumCoroutineThreads = nCoro) ∧
    (nIo ≤ 0 →
      (DispatcherCore.construct hc nCoro nIo pin).getNumIoThreads = 1) ∧
    (0 < nIo →
      (DispatcherCore.construct hc nCoro nIo pin).getNumIoThreads = nIo) := by
  have hcl : (DispatcherCore.construct hc nCoro nIo pin).coroQueues.length =
      coroThreadCount hc nCoro := by
    simp [DispatcherCore.construct]
  have hil : (DispatcherCore.construct hc nCoro nIo pin).ioQueues.length =
      ioThreadCount nIo := by
    simp [DispatcherCore.construct]
  have hone : toInt32 1 = 1 := by decide
  refine ⟨?_, ?_, ?_, ?_, ?_⟩
  · intro h
    simp only [DispatcherCore.getNumCoroutineThreads]
    rw [hcl, show coroThreadCount hc nCoro = hc by simp [coroThreadCount, h]]
    unfold toInt32
    rw [Nat.mod_eq_of_lt (show hc < 2 ^ 32 by omega), if_pos (by omega)]
  · intro h
    simp only [DispatcherCore.getNumCoroutineThreads]
    rw [hcl, show coroThreadCount hc nCoro = 1 by simp [coroThreadCount, h], hone]
  · intro h1 h0
    simp only [DispatcherCore.getNumCoroutineThreads]
    rw [hcl, show coroThreadCount hc nCoro = (nCoro % (USIZE : Int)).toNat by
      simp [coroThreadCount, h1, h0]]
    exact toInt32_round nCoro hc1 hc2
  · intro h
    simp only [DispatcherCore.getNumIoThreads]
    rw [hil, show ioThreadCount nIo = 1 by simp [ioThreadCount, h], hone]
  · intro h
    simp only [DispatcherCore.getNumIoThreads]
    rw [hil, show ioThreadCount nIo = (nIo % (USIZE : Int)).toNat by
      simp [ioThreadCount]
      omega]
    exact toInt32_round nIo hi1 hi2

/-- Witness for C9 at `(numCoroutineThreads, numIoThreads) = (-1, 0)` with
hardware concurrency 8: the core gets 8 coroutine queues and 1 I/O queue. -/
theorem construct_thread_counts_witness :
    ((8 : Nat) < 2 ^ 31 ∧ -2 ^ 31 ≤ (-1 : Int) ∧ (-1 : Int) < 2 ^ 31 ∧
      -2 ^ 31 ≤ (0 : Int) ∧ (0 : Int) < 2 ^ 31) ∧
    (DispatcherCore.construct 8 (-1) 0 false).getNumCoroutineThreads = (8 : Int) ∧
    (DispatcherCore.construct 8 (-1) 0 false).getNumIoThreads = 1 :=
  ⟨⟨by decide, by decide, by decide, by decide, by decide⟩,
    (construct_thread_counts 8 (-1) 0 false (by decide) (by decide) (by decide)
      (by decide) (by decide)).1 rfl,
    (construct_thread_counts 8 (-1) 0 false (by decide) (by decide) (by decide)
      (by decide) (by decide)).2.2.2.1 (by decide)⟩

/-! Claim C10 -/

/-- Claim C10: A null task pointer makes `post` and `postAsyncIo` return
immediately: no error is signalled, no queue is modified, and the static
round-robin counter is untouched. -/
theorem null_task_returns_immediately (g : Nat) (s : DispatcherCore) :
    s.post none = .ok s ∧ s.postAsyncIo g none = .ok (g, s) :=
  ⟨rfl, rfl⟩

end Quantum
